import Mathlib

set_option linter.unusedVariables false

/-!
Shallow embedding of the IntentMesh drift-detection and intent-linking engine
(drift detector, diff range extractor, intent linker, JSON store query layer,
and the capture/analyze orchestrator core), together with theorems settling
the specification claims about it.

Modelling conventions:
* JavaScript strings are Lean `String`s; `startsWith`/`endsWith`/`slice(1)` are
  modelled on the underlying character lists.
* JavaScript numbers holding line numbers are modelled as `Int`; confidence
  scores as `Rat`; `Date` values as `Nat` timestamps supplied explicitly.
* `undefined`-able fields are `Option`s; JavaScript truthiness tests on numbers
  and strings are modelled explicitly (`jsTruthyNum`, `jsTruthyStr`), so that
  `0` and `""` are falsy exactly as in the source.
* Asynchronous collaborators (LLM classifier, file system, attribution source,
  git, conversation loader) are passed in as explicit function parameters;
  fallible ones return `Except`.  Fresh UUIDs are supplied as indexed oracles.
* Store mutations are explicit state passing on `StorageData`.
-/

namespace IntentMesh

/-- Model of JavaScript `String.prototype.startsWith` on character lists. -/
def jsStartsWith (s pre : String) : Bool := decide (pre.data <+: s.data)

/-- Model of JavaScript `String.prototype.endsWith` on character lists. -/
def jsEndsWith (s suf : String) : Bool := decide (suf.data <:+ s.data)

/-- Model of JavaScript `line.slice(1)`: drop the first character. -/
def strDrop1 (s : String) : String := String.mk (s.data.drop 1)

/-- Truthiness of a JavaScript `number | undefined`: `undefined`, `0` are falsy. -/
def jsTruthyNum (o : Option Int) : Bool :=
  match o with
  | some n => !(n == 0)
  | none => false

/-- Model of JavaScript `String.prototype.trim` on the character list (strip
leading and trailing whitespace). -/
def jsTrim (s : String) : String :=
  String.mk (((s.data.dropWhile Char.isWhitespace).reverse.dropWhile Char.isWhitespace).reverse)

/-- Truthiness of a JavaScript `string | undefined`: `undefined`, `""` are falsy. -/
def jsTruthyStr (o : Option String) : Bool :=
  match o with
  | some s => !(s == "")
  | none => false

/-- Split a character list on a separator character (auxiliary for
`jsSplit`). -/
def splitOnChar (sep : Char) : List Char → List (List Char)
  | [] => [[]]
  | c :: rest =>
    let r := splitOnChar sep rest
    if c = sep then [] :: r
    else
      match r with
      | [] => [[c]]
      | h :: t => (c :: h) :: t

/-- Model of JavaScript `String.prototype.split` with a one-character
separator (`split("\n")`, `split("/")`): `""` yields `[""]`, a trailing
separator yields a trailing `""`. -/
def jsSplit (s : String) (sep : Char) : List String :=
  (splitOnChar sep s.data).map String.mk

/-- Model of JavaScript `Array.prototype.slice(start, stop)` including the
negative-index and clamping rules. -/
def jsSlice {α : Type} (l : List α) (start stop : Int) : List α :=
  let len : Int := l.length
  let s : Int := if start < 0 then max (len + start) 0 else min start len
  let e : Int := if stop < 0 then max (len + stop) 0 else min stop len
  (l.take e.toNat).drop s.toNat

/-- Model of JavaScript `Array.prototype.findIndex` (first matching index). -/
def jsFindIndex {α : Type} (p : α → Bool) : List α → Option Nat
  | [] => none
  | x :: xs => if p x then some 0 else (jsFindIndex p xs).map (· + 1)

/-- The find-index-then-replace-else-push pattern used by every `save*`
method of `JsonFileStore`. -/
def upsertByKey {α : Type} (p : α → Bool) (l : List α) (a : α) : List α :=
  match jsFindIndex p l with
  | some i => l.set i a
  | none => l ++ [a]

/-- Model of `[...new Set(xs)]`: deduplicate keeping first occurrences. -/
def jsSetDedup (l : List String) : List String :=
  l.foldl (fun acc x => if acc.contains x then acc else acc ++ [x]) []

/-- Numeric value of a decimal digit character. -/
def digitVal (c : Char) : Nat := c.toNat - 48

/-- Model of `parseInt` on a non-empty run of decimal digits. -/
def digitsToNat (ds : List Char) : Nat := ds.foldl (fun n c => n * 10 + digitVal c) 0

-- ===== Data model (src/models/intent.ts, src/models/drift.ts, =====
-- ===== src/core/intent-source.ts, src/core/attribution-source.ts) =====

/-- Model of `SourceReference` (src/core/intent-source.ts). -/
structure SourceReference where
  sourceId : String
  sourceType : String
  uri : Option String := none
  timestamp : Option Nat := none
  metadata : Option (List (String × String)) := none
  deriving Repr, DecidableEq

/-- Model of `IntentConstraint` (src/models/intent.ts). -/
structure IntentConstraint where
  type : String
  value : String
  description : Option String := none
  deriving Repr, DecidableEq

/-- Model of `IntentNode` (src/models/intent.ts).  The union-typed fields
(`category`, `strength`, `status`) are kept as strings, as the source compares
them against string literals. -/
structure IntentNode where
  id : String
  title : String
  statement : String
  tags : List String
  category : String
  strength : String
  status : String
  sources : List SourceReference
  createdAt : Nat
  updatedAt : Nat
  constraints : Option (List IntentConstraint) := none
  deriving Repr, DecidableEq

/-- Model of `IntentLink` (src/models/intent.ts). -/
structure IntentLink where
  id : String
  intentId : String
  fileUri : String
  startLine : Option Int := none
  endLine : Option Int := none
  symbol : Option String := none
  linkType : String
  confidence : Rat
  rationale : Option String := none
  createdAt : Nat
  createdBy : String
  deriving Repr, DecidableEq

/-- Model of `Contributor` (src/core/attribution-source.ts). -/
structure Contributor where
  type : String
  modelId : Option String := none
  toolId : Option String := none
  userId : Option String := none
  deriving Repr, DecidableEq

/-- Model of `AttributionSpan` (src/core/attribution-source.ts). -/
structure AttributionSpan where
  fileUri : String
  startLine : Int
  endLine : Int
  contributor : Contributor
  conversationUrl : Option String := none
  conversationId : Option String := none
  timestamp : Option Nat := none
  revision : Option String := none
  contentHash : Option String := none
  deriving Repr, DecidableEq

/-- Model of `Range` (src/models/drift.ts). -/
structure Range where
  startLine : Int
  startCharacter : Int
  endLine : Int
  endCharacter : Int
  deriving Repr, DecidableEq

/-- Model of `DriftEvent` (src/models/drift.ts). -/
structure DriftEvent where
  id : String
  fileUri : String
  range : Range
  type : String
  severity : String
  confidence : Rat
  intentIds : List String
  summary : String
  explanation : String
  suggestedFix : Option String := none
  attribution : Option AttributionSpan := none
  status : String
  createdAt : Nat
  resolvedAt : Option Nat := none
  deriving Repr, DecidableEq

/-- Parameters of the `createDriftEvent` factory (src/models/drift.ts). -/
structure DriftEventParams where
  fileUri : String
  range : Range
  type : Option String := none
  severity : String
  confidence : Rat
  intentIds : List String
  summary : String
  explanation : String
  suggestedFix : Option String := none
  attribution : Option AttributionSpan := none

/-- Model of the `createDriftEvent` factory (src/models/drift.ts); the fresh
UUID and current time are supplied explicitly. -/
def createDriftEvent (freshId : String) (now : Nat) (params : DriftEventParams) : DriftEvent :=
  { id := freshId
    fileUri := params.fileUri
    range := params.range
    type := params.type.getD "intent_violation"
    severity := params.severity
    confidence := params.confidence
    intentIds := params.intentIds
    summary := params.summary
    explanation := params.explanation
    suggestedFix := params.suggestedFix
    attribution := params.attribution
    status := "open"
    createdAt := now }

/-- Parameters of the `createIntentLink` factory (src/models/intent.ts). -/
structure IntentLinkParams where
  intentId : String
  fileUri : String
  startLine : Option Int := none
  endLine : Option Int := none
  symbol : Option String := none
  linkType : Option String := none
  confidence : Option Rat := none
  rationale : Option String := none

/-- Model of the `createIntentLink` factory (src/models/intent.ts). -/
def createIntentLink (freshId : String) (now : Nat) (p : IntentLinkParams) : IntentLink :=
  { id := freshId
    intentId := p.intentId
    fileUri := p.fileUri
    startLine := p.startLine
    endLine := p.endLine
    symbol := p.symbol
    linkType := p.linkType.getD "inferred"
    confidence := p.confidence.getD (1 / 2)
    rationale := p.rationale
    createdAt := now
    createdBy := "system" }

/-- Parameters of the `createIntentNode` factory (src/models/intent.ts). -/
structure IntentNodeParams where
  title : String
  statement : String
  tags : Option (List String) := none
  category : Option String := none
  strength : Option String := none
  sources : Option (List SourceReference) := none

/-- Model of the `createIntentNode` factory (src/models/intent.ts). -/
def createIntentNode (freshId : String) (now : Nat) (p : IntentNodeParams) : IntentNode :=
  { id := freshId
    title := p.title
    statement := p.statement
    tags := p.tags.getD []
    category := p.category.getD "behavior"
    strength := p.strength.getD "medium"
    status := "active"
    sources := p.sources.getD []
    createdAt := now
    updatedAt := now }

-- ===== LLM collaborator contract (src/llm/schemas.ts, core/llm-service) =====

/-- Model of a classifier violation (`DriftViolationSchema`, src/llm/schemas.ts). -/
structure DriftViolation where
  intentId : String
  severity : String
  summary : String
  explanation : String
  lineStart : Int
  lineEnd : Int
  confidence : Rat
  suggestedFix : Option String := none
  deriving Repr, DecidableEq

/-- Model of the classifier response (`DriftAnalysisSchema`, src/llm/schemas.ts). -/
structure DriftAnalysis where
  violations : List DriftViolation
  deriving Repr, DecidableEq

/-- Model of `DriftCheckParams` (the classifier input contract). -/
structure DriftCheckParams where
  intents : List IntentNode
  code : String
  filePath : String
  language : String
  deriving Repr, DecidableEq

/-- Model of `ConversationMessage` (src/models/conversation.ts). -/
structure ConversationMessage where
  role : String
  content : String
  deriving Repr, DecidableEq

/-- Model of `ExtractedIntent` (the intent-extractor output contract,
src/llm/schemas.ts). -/
structure ExtractedIntent where
  title : String
  statement : String
  confidence : String
  evidence : String
  tags : List String
  deriving Repr, DecidableEq

/-- Model of a file range carried by a loaded conversation
(`LoadedConversation.fileRanges`, src/core/intent-mesh-core.ts). -/
structure FileRange where
  filePath : String
  startLine : Int
  endLine : Int
  deriving Repr, DecidableEq

/-- Model of `LoadedConversation` (src/core/intent-mesh-core.ts). -/
structure LoadedConversation where
  id : String
  name : Option String := none
  messages : List ConversationMessage
  projectPath : Option String := none
  fileRanges : Option (List FileRange) := none
  deriving Repr, DecidableEq

-- ===== Intent Store (src/storage/json-file-store.ts) =====

/-- In-memory contents of the three persisted collections
(`StorageData`, src/storage/json-file-store.ts). -/
structure StorageData where
  version : Nat
  intents : List IntentNode
  links : List IntentLink
  driftEvents : List DriftEvent
  deriving Repr, DecidableEq

/-- Model of `DriftQuery` (src/core/store.ts). -/
structure DriftQuery where
  fileUri : Option String := none
  intentId : Option String := none
  status : Option String := none
  severity : Option String := none
  deriving Repr, DecidableEq

namespace JsonFileStore

/-- Model of `JsonFileStore.normalizeUri`: strip one leading `file://`, then
turn every backslash into a forward slash. -/
def normalizeUri (uri : String) : String :=
  let stripped := if jsStartsWith uri "file://" then String.mk (uri.data.drop 7) else uri
  String.mk (stripped.data.map (fun c => if c = '\\' then '/' else c))

/-- The per-link match predicate of `JsonFileStore.getLinksForFile`. -/
def linkMatchesFile (fileUri : String) (l : IntentLink) : Bool :=
  let normalized := normalizeUri fileUri
  let linkPath := normalizeUri l.fileUri
  normalized == linkPath || jsEndsWith normalized ("/" ++ linkPath) ||
    jsEndsWith normalized linkPath

/-- Model of `JsonFileStore.getLinksForFile`. -/
def getLinksForFile (d : StorageData) (fileUri : String) : List IntentLink :=
  d.links.filter (linkMatchesFile fileUri)

/-- Model of `JsonFileStore.getIntent`. -/
def getIntent (d : StorageData) (id : String) : Option IntentNode :=
  d.intents.find? (fun i => i.id == id)

/-- The per-event filter of `JsonFileStore.getDriftEvents`; a query field that
is `undefined` or `""` (falsy) imposes no constraint. -/
def driftMatchesQuery (q : DriftQuery) (e : DriftEvent) : Bool :=
  (if jsTruthyStr q.fileUri then normalizeUri e.fileUri == normalizeUri (q.fileUri.getD "") else true) &&
  (if jsTruthyStr q.intentId then e.intentIds.contains (q.intentId.getD "") else true) &&
  (if jsTruthyStr q.status then e.status == q.status.getD "" else true) &&
  (if jsTruthyStr q.severity then e.severity == q.severity.getD "" else true)

/-- Model of `JsonFileStore.getDriftEvents`. -/
def getDriftEvents (d : StorageData) (q : DriftQuery) : List DriftEvent :=
  d.driftEvents.filter (driftMatchesQuery q)

/-- Model of `JsonFileStore.saveIntent` (replace by id, setting `updatedAt`,
else push). -/
def saveIntent (d : StorageData) (intent : IntentNode) (now : Nat) : StorageData :=
  { d with intents :=
      upsertByKey (fun i => i.id == intent.id) d.intents { intent with updatedAt := now } }

/-- Model of `JsonFileStore.saveLink` (replace by id, else push). -/
def saveLink (d : StorageData) (link : IntentLink) : StorageData :=
  { d with links := upsertByKey (fun l => l.id == link.id) d.links link }

/-- Model of `JsonFileStore.saveDriftEvent` (replace by id, else push). -/
def saveDriftEvent (d : StorageData) (e : DriftEvent) : StorageData :=
  { d with driftEvents := upsertByKey (fun x => x.id == e.id) d.driftEvents e }

end JsonFileStore

-- ===== Intent Linker (src/engine/intent-linker.ts) =====

namespace IntentLinker

/-- Model of `IntentLinker.getIntentsForFile`: links for the file, unique
intent ids in first-seen order, resolved and filtered to `status == "active"`. -/
def getIntentsForFile (d : StorageData) (fileUri : String) : List IntentNode :=
  let links := JsonFileStore.getLinksForFile d fileUri
  let intentIds := jsSetDedup (links.map (fun l => l.intentId))
  intentIds.filterMap (fun id =>
    match JsonFileStore.getIntent d id with
    | some intent => if intent.status == "active" then some intent else none
    | none => none)

/-- Model of `IntentLinker.getLinksForRange`: links with a falsy line range
apply to the whole file; otherwise overlap is required. -/
def getLinksForRange (d : StorageData) (fileUri : String) (startLine endLine : Int) :
    List IntentLink :=
  (JsonFileStore.getLinksForFile d fileUri).filter (fun link =>
    if !(jsTruthyNum link.startLine) || !(jsTruthyNum link.endLine) then true
    else decide (link.startLine.getD 0 ≤ endLine) && decide (startLine ≤ link.endLine.getD 0))

/-- Model of `IntentLinker.createLink`: builds a link via `createIntentLink`
(`linkType` depends on the truthiness of `startLine`, confidence `0.8`) and
saves it. -/
def createLink (freshId : String) (now : Nat) (d : StorageData)
    (intentId fileUri : String) (startLine endLine : Option Int)
    (rationale : Option String) : IntentLink × StorageData :=
  let link := createIntentLink freshId now
    { intentId := intentId
      fileUri := fileUri
      startLine := startLine
      endLine := endLine
      linkType := some (if jsTruthyNum startLine then "inferred" else "manual")
      confidence := some (4 / 5)
      rationale := rationale }
  (link, JsonFileStore.saveLink d link)

end IntentLinker

-- ===== Drift Detector (src/engine/drift-detector.ts) =====

namespace DriftDetector

/-- Result type of a single-file detection (`DriftDetectionResult`). -/
structure DriftDetectionResult where
  events : List DriftEvent
  intentsChecked : Nat
  deriving Repr, DecidableEq

/-- Model of `uri.replace(/^file:\/\//, "")`. -/
def stripFileScheme (uri : String) : String :=
  if jsStartsWith uri "file://" then String.mk (uri.data.drop 7) else uri

/-- Skip an optional `,digits` group of the hunk-header pattern; when the comma
is not followed by a digit the group does not apply and the input is left in
place (the overall match then fails on the following literal). -/
def skipCommaDigits (cs : List Char) : List Char :=
  match cs with
  | ',' :: rest =>
    if (rest.takeWhile Char.isDigit).isEmpty then ',' :: rest
    else rest.dropWhile Char.isDigit
  | _ => cs

/-- Try to match the hunk-header pattern
`@@ -digits(,digits)? +digits(,digits)? @@` at the head of `cs`, returning the
captured new-file start (the digits after `+`). -/
def matchHunkAt (cs : List Char) : Option Nat :=
  match cs with
  | '@' :: '@' :: ' ' :: '-' :: r1 =>
    let d1 := r1.takeWhile Char.isDigit
    if d1.isEmpty then none
    else
      match skipCommaDigits (r1.dropWhile Char.isDigit) with
      | ' ' :: '+' :: r3 =>
        let d2 := r3.takeWhile Char.isDigit
        if d2.isEmpty then none
        else
          match skipCommaDigits (r3.dropWhile Char.isDigit) with
          | ' ' :: '@' :: '@' :: _ => some (digitsToNat d2)
          | _ => none
      | _ => none
  | _ => none

/-- Leftmost match of the hunk-header pattern anywhere in the character list
(JavaScript `String.prototype.match` is an unanchored search). -/
def searchHunk : List Char → Option Nat
  | [] => none
  | c :: rest =>
    match matchHunkAt (c :: rest) with
    | some n => some n
    | none => searchHunk rest

/-- Model of `line.match(/@@ -\d+(?:,\d+)? \+(\d+)(?:,\d+)? @@/)` followed by
`parseInt(match[1], 10)`. -/
def hunkHeaderNewStart (line : String) : Option Nat := searchHunk line.data

/-- The non-hunk diff header lines skipped by `extractChangedCodeFromDiff`. -/
def isHeaderMeta (line : String) : Bool :=
  jsStartsWith line "diff --git" || jsStartsWith line "index " ||
    jsStartsWith line "---" || jsStartsWith line "+++"

/-- One step of `DriftDetector.extractChangedCodeFromDiff`: given the current
new-file cursor and one diff line, produce the next cursor and the optionally
emitted (line number, content) pair. -/
def processDiffLine (currentLine : Nat) (line : String) : Nat × Option (Nat × String) :=
  if jsStartsWith line "@@" then
    match hunkHeaderNewStart line with
    | some c => (c, none)
    | none => (currentLine, none)
  else if isHeaderMeta line then (currentLine, none)
  else if jsStartsWith line "+" then (currentLine + 1, some (currentLine, strDrop1 line))
  else if jsStartsWith line " " then (currentLine + 1, some (currentLine, strDrop1 line))
  else (currentLine, none)

/-- The loop of `extractChangedCodeFromDiff`, producing the retained lines as
(absolute line number, content) pairs. -/
def extractNumbered : List String → Nat → List (Nat × String)
  | [], _ => []
  | l :: rest, cur =>
    match processDiffLine cur l with
    | (cur2, some p) => p :: extractNumbered rest cur2
    | (cur2, none) => extractNumbered rest cur2

/-- Rendering of one retained line: `` `${currentLine}: ${line.slice(1)}` ``. -/
def renderNumberedLine (p : Nat × String) : String := toString p.1 ++ ": " ++ p.2

/-- Model of `DriftDetector.extractChangedCodeFromDiff`: split the diff on
newlines, run the cursor loop from `0`, render each retained line as
`"<n>: <content>"`, and join with newlines. -/
def extractChangedCodeFromDiff (diff : String) : String :=
  String.intercalate "\n" ((extractNumbered (jsSplit diff '\n') 0).map renderNumberedLine)

/-- Model of `path.extname` for POSIX paths. -/
def extname (p : String) : String :=
  let base := ((jsSplit p '/').getLastD "")
  let cs := base.data
  let afterDot := cs.reverse.takeWhile (fun c => !(c == '.'))
  if afterDot.length == cs.length then ""
  else if cs.length - afterDot.length - 1 == 0 then ""
  else String.mk ('.' :: afterDot.reverse)

/-- Model of `DriftDetector.getLanguage`. -/
def getLanguage (filePath : String) : String :=
  let ext := String.mk ((extname filePath).data.map Char.toLower)
  if ext == ".ts" then "typescript"
  else if ext == ".tsx" then "typescript"
  else if ext == ".js" then "javascript"
  else if ext == ".jsx" then "javascript"
  else if ext == ".py" then "python"
  else if ext == ".go" then "go"
  else if ext == ".rs" then "rust"
  else if ext == ".java" then "java"
  else if ext == ".rb" then "ruby"
  else if ext == ".php" then "php"
  else "text"

/-- A code range to classify (`{intents, code, startLine}` entries built by
`groupByRanges`). -/
structure RangeCheck where
  intents : List IntentNode
  code : String
  startLine : Int
  deriving Repr, DecidableEq

/-- The in-place merge of one intent into an existing range entry: the intent
is appended unless an intent with the same id is already present. -/
def addIntentIfNew (r : RangeCheck) (intent : IntentNode) : RangeCheck :=
  if (r.intents.find? (fun i => i.id == intent.id)).isSome then r
  else { r with intents := r.intents ++ [intent] }

/-- Update the first entry having the given `startLine` (the entry found by
`result.find(...)` and mutated in place in the source). -/
def updateFirstRange : List RangeCheck → IntentNode → Int → List RangeCheck
  | [], _, _ => []
  | r :: rest, intent, s =>
    if r.startLine == s then addIntentIfNew r intent :: rest
    else r :: updateFirstRange rest intent s

/-- The merge-or-push step of the `groupByRanges` loop. -/
def upsertRange (result : List RangeCheck) (intent : IntentNode) (code : String)
    (s : Int) : List RangeCheck :=
  if (result.find? (fun r => r.startLine == s)).isSome then updateFirstRange result intent s
  else result ++ [{ intents := [intent], code := code, startLine := s }]

/-- The line-scoped-link test `l.startLine && l.endLine` (truthiness). -/
def isRangeLink (l : IntentLink) : Bool := jsTruthyNum l.startLine && jsTruthyNum l.endLine

/-- The code slice taken for one line-scoped link:
`lines.slice(startLine - 1, Math.min(endLine, lines.length)).join("\n")`. -/
def linkCodeSlice (lines : List String) (link : IntentLink) : String :=
  String.intercalate "\n"
    (jsSlice lines (link.startLine.getD 0 - 1) (min (link.endLine.getD 0) (lines.length : Int)))

/-- One iteration of the `groupByRanges` loop over the line-scoped links. -/
def rangeStep (intents : List IntentNode) (lines : List String)
    (result : List RangeCheck) (link : IntentLink) : List RangeCheck :=
  match intents.find? (fun i => i.id == link.intentId) with
  | none => result
  | some intent => upsertRange result intent (linkCodeSlice lines link) (link.startLine.getD 0)

/-- Model of `DriftDetector.groupByRanges`. -/
def groupByRanges (intents : List IntentNode) (links : List IntentLink)
    (fileContent : String) : List RangeCheck :=
  let lines := jsSplit fileContent '\n'
  let rangeLinks := links.filter isRangeLink
  if rangeLinks.isEmpty then [{ intents := intents, code := fileContent, startLine := 1 }]
  else rangeLinks.foldl (rangeStep intents lines) []

/-- External collaborators of the drift detector, passed explicitly: the LLM
classifier (fallible), the file system read (fallible), the attribution
source, a UUID oracle for diff-mode events, a two-level UUID oracle for
file-mode events (range index, violation index), and the current time. -/
structure DetectorDeps where
  llm : DriftCheckParams → Except Unit DriftAnalysis
  readFile : String → Except Unit String
  getRangeAttribution : String → Int → Int → List AttributionSpan
  uuid : Nat → String
  uuid2 : Nat → Nat → String
  now : Nat

/-- Model of `DriftDetector.detectInDiff`: short-circuit on a blank excerpt,
otherwise one classifier call whose violations become events carrying the
classifier's line numbers verbatim. -/
def detectInDiff (llm : DriftCheckParams → Except Unit DriftAnalysis)
    (uuid : Nat → String) (now : Nat) (fileUri diff : String)
    (intents : List IntentNode) (language : String) : DriftDetectionResult :=
  let filePath := stripFileScheme fileUri
  let changedCode := extractChangedCodeFromDiff diff
  if jsTrim changedCode == "" then { events := [], intentsChecked := intents.length }
  else
    match llm { intents := intents, code := changedCode, filePath := filePath,
                language := language } with
    | Except.error _ => { events := [], intentsChecked := intents.length }
    | Except.ok analysis =>
      { events := (analysis.violations.enum).map (fun iv =>
          let violation := iv.2
          let intent := intents.find? (fun i => i.id == violation.intentId)
          createDriftEvent (uuid iv.1) now
            { fileUri := fileUri
              range := { startLine := violation.lineStart, endLine := violation.lineEnd,
                         startCharacter := 0, endCharacter := 0 }
              severity := violation.severity
              summary := violation.summary
              explanation := violation.explanation
              intentIds := match intent with | some i => [i.id] | none => []
              suggestedFix := violation.suggestedFix
              confidence := violation.confidence })
        intentsChecked := intents.length }

/-- The per-violation event construction of the file-mode loop
(`detectInFile`, lines 97-131 of src/engine/drift-detector.ts): remap the
classifier's excerpt-relative lines to absolute coordinates, attach the first
overlapping attribution span, and build the event. -/
def violationToFileEvent (deps : DetectorDeps) (fileUri : String)
    (rangeIntents : List IntentNode) (startLine : Int) (rIdx vIdx : Nat)
    (violation : DriftViolation) : DriftEvent :=
  let intent := rangeIntents.find? (fun i => i.id == violation.intentId)
  let absoluteStartLine := startLine + violation.lineStart - 1
  let absoluteEndLine := startLine + violation.lineEnd - 1
  let attribution := deps.getRangeAttribution fileUri absoluteStartLine absoluteEndLine
  createDriftEvent (deps.uuid2 rIdx vIdx) deps.now
    { fileUri := fileUri
      range := { startLine := absoluteStartLine, startCharacter := 0,
                 endLine := absoluteEndLine, endCharacter := 0 }
      severity := violation.severity
      confidence := violation.confidence
      intentIds := match intent with | some i => [i.id] | none => []
      summary := violation.summary
      explanation := violation.explanation
      suggestedFix := violation.suggestedFix
      attribution := attribution.head? }

/-- The per-range body of the file-mode loop: one classifier call; a failure
is caught and contributes no events. -/
def rangeEvents (deps : DetectorDeps) (fileUri filePath language : String)
    (rIdx : Nat) (rc : RangeCheck) : List DriftEvent :=
  match deps.llm { intents := rc.intents, code := rc.code, filePath := filePath,
                   language := language } with
  | Except.error _ => []
  | Except.ok analysis =>
    (analysis.violations.enum).map (fun iv =>
      violationToFileEvent deps fileUri rc.intents rc.startLine rIdx iv.1 iv.2)

/-- The full-file fallback path of `detectInFile`. -/
def detectInFileContent (deps : DetectorDeps) (store : StorageData)
    (fileUri filePath language : String) (intents : List IntentNode) :
    DriftDetectionResult :=
  match deps.readFile filePath with
  | Except.error _ => { events := [], intentsChecked := 0 }
  | Except.ok content =>
    let links := JsonFileStore.getLinksForFile store fileUri
    let rangesToCheck := groupByRanges intents links content
    { events := ((rangesToCheck.enum).map (fun ir =>
        rangeEvents deps fileUri filePath language ir.1 ir.2)).flatten
      intentsChecked := intents.length }

/-- Model of `DriftDetector.detectInFile` (the part_010 variant taking an
optional diff): fetch applicable intents, use diff-mode when a non-blank diff
is supplied, otherwise read the file, group by ranges and classify each. -/
def detectInFile (deps : DetectorDeps) (store : StorageData) (fileUri : String)
    (diff : Option String) : DriftDetectionResult :=
  let intents := IntentLinker.getIntentsForFile store fileUri
  if intents.length == 0 then { events := [], intentsChecked := 0 }
  else
    let filePath := stripFileScheme fileUri
    let language := getLanguage filePath
    match diff with
    | some dtext =>
      if !(jsTrim dtext == "") then
        detectInDiff deps.llm deps.uuid deps.now fileUri dtext intents language
      else
        detectInFileContent deps store fileUri filePath language intents
    | none => detectInFileContent deps store fileUri filePath language intents

end DriftDetector

-- ===== Capture/Analyze Orchestrator (src/core/intent-mesh-core.ts) =====

namespace IntentMeshCore

/-- Model of `AnalysisWarning` (src/core/analysis-engine.ts). -/
structure AnalysisWarning where
  message : String
  fileUri : Option String := none
  deriving Repr, DecidableEq

/-- Model of `AnalysisResult` (src/core/analysis-engine.ts), the output of the
analysis-engine collaborator. -/
structure AnalysisResult where
  driftEvents : List DriftEvent
  filesAnalyzed : Nat
  intentsChecked : Nat
  duration : Nat
  warnings : List AnalysisWarning
  deriving Repr, DecidableEq

/-- Model of `ConversationSummary` (src/core/intent-mesh-core.ts). -/
structure ConversationSummary where
  id : String
  name : Option String
  messageCount : Nat
  projectPath : Option String
  deriving Repr, DecidableEq

/-- Model of `AnalyzeResult` (src/core/intent-mesh-core.ts). -/
structure AnalyzeResult where
  drifts : List DriftEvent
  canCapture : Bool
  pendingConversations : Option (List ConversationSummary) := none
  filesAnalyzed : Nat
  intentsChecked : Nat
  deriving Repr, DecidableEq

/-- Model of `CaptureResult` (src/core/intent-mesh-core.ts). -/
structure CaptureResult where
  intentsImported : Nat
  linksCreated : Nat
  errors : List String
  deriving Repr, DecidableEq

/-- Options of `analyzeChanges`. -/
structure AnalyzeOptions where
  since : Option String := none
  files : Option (List String) := none

/-- Options of `captureIntents` (`autoLink` is falsy when absent). -/
structure CaptureOptions where
  conversationIds : Option (List String) := none
  autoLink : Bool := false

/-- The conversation-loader collaborator (`ConversationLoader`). -/
structure CoreConversationLoader where
  loadConversationsForFiles : List String → List LoadedConversation

/-- External collaborators of `IntentMeshCore`, passed explicitly: the VCS
capability, the analysis engine (treated as the opaque `IAnalysisEngine`
contract), the optional conversation loader, the intent extractor (fallible),
a UUID oracle and the current time. -/
structure CoreDeps where
  getChangedFiles : List String
  getFileDiff : String → String
  analyzeFile : String → String → AnalysisResult
  conversationLoader : Option CoreConversationLoader
  extractIntents : List ConversationMessage → Except String (List ExtractedIntent)
  uuid : Nat → String
  now : Nat

/-- Aggregate result of `IntentMeshCore.detectDrift`. -/
structure DriftSummary where
  drifts : List DriftEvent
  filesAnalyzed : Nat
  intentsChecked : Nat
  deriving Repr, DecidableEq

/-- The `file://`-qualification applied to each changed file. -/
def fileToUri (file : String) : String :=
  if jsStartsWith file "file://" then file else "file://" ++ file

/-- Model of `IntentMeshCore.detectDrift`: process the files in batches of
`batchSize` (parallel within a batch, sequential across batches; the aggregate
order is batch order then file order), concatenating events and summing
`intentsChecked`. -/
def detectDrift (deps : CoreDeps) (files : List String) (batchSize : Nat) : DriftSummary :=
  let results := ((files.toChunks batchSize).map (fun batch =>
    batch.map (fun file =>
      let fileUri := fileToUri file
      let filePath := DriftDetector.stripFileScheme file
      let diff := deps.getFileDiff filePath
      deps.analyzeFile fileUri diff))).flatten
  { drifts := (results.map (fun r => r.driftEvents)).flatten
    filesAnalyzed := files.length
    intentsChecked := (results.map (fun r => r.intentsChecked)).foldl (· + ·) 0 }

/-- Model of `IntentMeshCore.analyzeChanges`.  The store argument is the
Intent Store state at call time; note that the source computes `canCapture`
from the drift result of this invocation, not from the store. -/
def analyzeChanges (deps : CoreDeps) (store : StorageData) (options : AnalyzeOptions) :
    AnalyzeResult :=
  let files := options.files.getD deps.getChangedFiles
  if files.isEmpty then
    { drifts := [], canCapture := true, filesAnalyzed := 0, intentsChecked := 0 }
  else
    let driftResult := detectDrift deps files 5
    let canCapture := driftResult.drifts.length == 0
    let pendingConversations :=
      if canCapture then
        match deps.conversationLoader with
        | some loader =>
          some ((loader.loadConversationsForFiles files).map (fun c =>
            { id := c.id, name := c.name, messageCount := c.messages.length,
              projectPath := c.projectPath }))
        | none => none
      else none
    { drifts := driftResult.drifts
      canCapture := canCapture
      pendingConversations := pendingConversations
      filesAnalyzed := driftResult.filesAnalyzed
      intentsChecked := driftResult.intentsChecked }

/-- The guard error string of `captureIntents`. -/
def captureGuardError (n : Nat) : String :=
  "Cannot capture intents: " ++ toString n ++ " unresolved drift(s). Fix or dismiss them first."

/-- Running state of the `captureIntents` loops (store, counters, errors, and
the index used to draw fresh UUIDs). -/
structure CaptureState where
  store : StorageData
  intentsImported : Nat
  linksCreated : Nat
  errors : List String
  fresh : Nat

/-- One auto-link creation in `captureIntents` (`confidence: 0.9`,
`linkType: "extracted"`). -/
def captureLink (deps : CoreDeps) (intentId : String) (st : CaptureState)
    (r : FileRange) : CaptureState :=
  let link : IntentLink :=
    { id := deps.uuid st.fresh
      intentId := intentId
      fileUri := r.filePath
      startLine := some r.startLine
      endLine := some r.endLine
      linkType := "extracted"
      confidence := 9 / 10
      createdAt := deps.now
      createdBy := "system" }
  { st with store := JsonFileStore.saveLink st.store link
            linksCreated := st.linksCreated + 1
            fresh := st.fresh + 1 }

/-- Persisting one extracted intent in `captureIntents` (strength fixed to
`"strong"`), plus optional auto-linking over the conversation's file ranges. -/
def captureOneIntent (deps : CoreDeps) (opts : CaptureOptions)
    (convo : LoadedConversation) (st : CaptureState) (intent : ExtractedIntent) :
    CaptureState :=
  let intentNode := createIntentNode (deps.uuid st.fresh) deps.now
    { title := intent.title
      statement := intent.statement
      tags := some intent.tags
      strength := some "strong"
      sources := some [{ sourceId := convo.id
                         sourceType := "conversation"
                         uri := some ("conversation://" ++ convo.id)
                         timestamp := some deps.now
                         metadata := some [("evidence", intent.evidence)] }] }
  let st1 : CaptureState :=
    { st with store := JsonFileStore.saveIntent st.store intentNode deps.now
              intentsImported := st.intentsImported + 1
              fresh := st.fresh + 1 }
  if opts.autoLink then
    match convo.fileRanges with
    | some ranges => ranges.foldl (captureLink deps intentNode.id) st1
    | none => st1
  else st1

/-- Processing of one conversation in `captureIntents`: extraction failures
are collected as error strings and do not abort the remaining conversations. -/
def captureFromConversation (deps : CoreDeps) (opts : CaptureOptions)
    (st : CaptureState) (convo : LoadedConversation) : CaptureState :=
  match deps.extractIntents convo.messages with
  | Except.error err =>
    { st with errors := st.errors ++ ["Failed to extract from " ++ convo.id ++ ": " ++ err] }
  | Except.ok extracted => extracted.foldl (captureOneIntent deps opts convo) st

/-- Model of `IntentMeshCore.captureIntents`: the open-drift guard, the
missing-loader guard, then per-conversation extraction and persistence. -/
def captureIntents (deps : CoreDeps) (store : StorageData) (options : CaptureOptions) :
    CaptureResult × StorageData :=
  let openDrifts := JsonFileStore.getDriftEvents store { status := some "open" }
  if openDrifts.length > 0 then
    ({ intentsImported := 0, linksCreated := 0,
       errors := [captureGuardError openDrifts.length] }, store)
  else
    match deps.conversationLoader with
    | none =>
      ({ intentsImported := 0, linksCreated := 0,
         errors := ["No conversation loader configured"] }, store)
    | some loader =>
      let files := deps.getChangedFiles
      let allConvos := loader.loadConversationsForFiles files
      let conversations :=
        match options.conversationIds with
        | some ids => allConvos.filter (fun (c : LoadedConversation) => ids.contains c.id)
        | none => allConvos
      let final := conversations.foldl (captureFromConversation deps options)
        { store := store, intentsImported := 0, linksCreated := 0, errors := [], fresh := 0 }
      ({ intentsImported := final.intentsImported
         linksCreated := final.linksCreated
         errors := final.errors }, final.store)

/-- The three resolution actions of `resolveDrift`. -/
inductive ResolveAction
  | dismiss
  | false_positive
  | update_intent
  deriving Repr, DecidableEq

/-- Model of `IntentMeshCore.resolveDrift`: find the event among all drift
events; unknown id is an error with no mutation; `dismiss` and
`false_positive` set the status; `update_intent` requires a truthy
`newStatement`, rewrites the first linked intent's statement (bumping
`updatedAt`), and marks the event resolved with `resolvedAt` set. -/
def resolveDrift (store : StorageData) (now : Nat) (eventId : String)
    (action : ResolveAction) (newStatement : Option String) :
    Except String StorageData :=
  let events := JsonFileStore.getDriftEvents store {}
  match events.find? (fun e => e.id == eventId) with
  | none => Except.error ("Drift event " ++ eventId ++ " not found")
  | some event =>
    match action with
    | ResolveAction.dismiss =>
      Except.ok (JsonFileStore.saveDriftEvent store { event with status := "acknowledged" })
    | ResolveAction.false_positive =>
      Except.ok (JsonFileStore.saveDriftEvent store { event with status := "false_positive" })
    | ResolveAction.update_intent =>
      if !(jsTruthyStr newStatement) then
        Except.error "newStatement required for update_intent action"
      else
        let s := newStatement.getD ""
        let store1 :=
          match event.intentIds with
          | [] => store
          | firstId :: _ =>
            match JsonFileStore.getIntent store firstId with
            | some intent =>
              JsonFileStore.saveIntent store { intent with statement := s, updatedAt := now } now
            | none => store
        Except.ok (JsonFileStore.saveDriftEvent store1
          { event with status := "resolved", resolvedAt := some now })

end IntentMeshCore

-- ===== Proof-side predicates and concrete sample inputs =====

/-- Invariant of the `groupByRanges` fold: `acc` is the accumulator after
processing the line-scoped links in `processed`.  Start lines are distinct,
intent lists are deduplicated by id, every entry's start line and code come
from some processed link with an applicable intent, every intent in an entry
is justified by a processed link at that start line, and every applicable
processed link is represented. -/
def GroupInv (intents : List IntentNode) (lines : List String)
    (processed : List IntentLink) (acc : List DriftDetector.RangeCheck) : Prop :=
  ((acc.map (fun r => r.startLine)).Nodup) ∧
  (∀ r ∈ acc, (r.intents.map (fun i => i.id)).Nodup) ∧
  (∀ r ∈ acc, ∃ link ∈ processed,
    r.startLine = link.startLine.getD 0 ∧
    r.code = DriftDetector.linkCodeSlice lines link ∧
    (intents.find? (fun x => x.id == link.intentId)).isSome) ∧
  (∀ r ∈ acc, ∀ i ∈ r.intents, ∃ link ∈ processed,
    link.startLine.getD 0 = r.startLine ∧
    intents.find? (fun x => x.id == link.intentId) = some i) ∧
  (∀ link ∈ processed, ∀ intent,
    intents.find? (fun x => x.id == link.intentId) = some intent →
    ∃ r ∈ acc, r.startLine = link.startLine.getD 0 ∧
      intent.id ∈ r.intents.map (fun i => i.id))

/-- The spec-side file matching predicate, following the specification's words
for comparison with the implementation: the query path equals the link path,
or the link path is a path suffix of the query path at a `/` boundary. -/
def specSuffixTolerantMatch (query linkPath : String) : Bool :=
  query == linkPath || jsEndsWith query ("/" ++ linkPath)

/-- A minimal active intent used as concrete input in witnesses. -/
def sIntent (i : String) : IntentNode :=
  { id := i, title := "t", statement := "s", tags := [], category := "behavior",
    strength := "medium", status := "active", sources := [], createdAt := 0, updatedAt := 0 }

/-- A minimal link used as concrete input in witnesses. -/
def sLink (i intentId file : String) (sl el : Option Int) : IntentLink :=
  { id := i, intentId := intentId, fileUri := file, startLine := sl, endLine := el,
    linkType := "manual", confidence := 1, createdAt := 0, createdBy := "user" }

/-- A minimal open drift event used as concrete input in witnesses. -/
def sEventOpen (i : String) : DriftEvent :=
  { id := i, fileUri := "a.ts", range := { startLine := 1, startCharacter := 0, endLine := 1, endCharacter := 0 },
    type := "intent_violation", severity := "error", confidence := 1, intentIds := ["X"],
    summary := "sum", explanation := "why", status := "open", createdAt := 0 }

/-- A minimal classifier violation used as concrete input in witnesses. -/
def sViolation (ls le : Int) : DriftViolation :=
  { intentId := "X", severity := "error", summary := "sum", explanation := "why",
    lineStart := ls, lineEnd := le, confidence := 19 / 20 }

/-- Concrete detector collaborators built around a given classifier. -/
def sDetDeps (llm : DriftCheckParams → Except Unit DriftAnalysis) :
    DriftDetector.DetectorDeps :=
  { llm := llm
    readFile := fun _ => Except.ok ""
    getRangeAttribution := fun _ _ _ => []
    uuid := fun _ => "u"
    uuid2 := fun _ _ => "u"
    now := 0 }

/-- Concrete orchestrator collaborators with trivial behaviour. -/
def sCoreDeps : IntentMeshCore.CoreDeps :=
  { getChangedFiles := []
    getFileDiff := fun _ => ""
    analyzeFile := fun _ _ =>
      { driftEvents := [], filesAnalyzed := 1, intentsChecked := 0, duration := 0, warnings := [] }
    conversationLoader := none
    extractIntents := fun _ => Except.ok []
    uuid := fun _ => "u"
    now := 0 }

/-- A store holding exactly one open drift event. -/
def openDriftStore : StorageData :=
  { version := 1, intents := [], links := [], driftEvents := [sEventOpen "e1"] }

/-- A classifier returning one fixed violation at relative lines 3-3. -/
def c1Llm : DriftCheckParams → Except Unit DriftAnalysis :=
  fun _ => Except.ok { violations := [sViolation 3 3] }

/-- A range entry starting at line 10, for the remap witness. -/
def c1Rc : DriftDetector.RangeCheck :=
  { intents := [sIntent "X"], code := "code", startLine := 10 }

/-- A link stored under the bare relative path `b.ts`. -/
def c9Link : IntentLink := sLink "l1" "i1" "b.ts" none none

/-- A store holding only `c9Link`. -/
def c9Store : StorageData := { version := 1, intents := [], links := [c9Link], driftEvents := [] }

/-- A store holding one intent `X` (statement `"old"`) and one open event on it. -/
def c7Store : StorageData :=
  { version := 1, intents := [{ sIntent "X" with statement := "old" }], links := [],
    driftEvents := [sEventOpen "e1"] }

/-- Two line-scoped links on distinct start lines for the grouping witness. -/
def c8L1 : IntentLink := sLink "l1" "X" "a.ts" (some 1) (some 2)

/-- Second grouping-witness link, distinct start line. -/
def c8L2 : IntentLink := sLink "l2" "X" "a.ts" (some 2) (some 3)

/-- A headers-only diff whose extracted excerpt is empty. -/
def c5Diff : String := "diff --git a/x.ts b/x.ts\nindex 1..2 100644\n--- a/x.ts\n+++ b/x.ts"

/-- A link with a zero start line, for the truthiness witness. -/
def c10Link : IntentLink := sLink "l0" "X" "a.ts" (some 0) (some 7)

/-- A store holding only the zero-start-line link. -/
def c10Store : StorageData := { version := 1, intents := [], links := [c10Link], driftEvents := [] }

-- ===== Theorems =====

/-- If a string starts with `a` and `a` begins with character `c`, the string
begins with `c`. -/
theorem startsWith_head_eq {s a : String} (h : jsStartsWith s a = true) {c : Char}
    {cs : List Char} (ha : a.data = c :: cs) : s.data.head? = some c := by
  simp only [jsStartsWith, decide_eq_true_eq] at h
  obtain ⟨t, ht⟩ := h
  rw [ha] at ht
  rw [← ht]
  rfl

/-- A string whose first character is not `d` does not start with a string
beginning in `d`. -/
theorem startsWith_head_ne_false {s b : String} {d : Char} {ds : List Char}
    (hb : b.data = d :: ds) (hh : s.data.head? ≠ some d) : jsStartsWith s b = false := by
  by_contra hc
  rw [Bool.not_eq_false] at hc
  exact hh (startsWith_head_eq hc hb)

/-- On a line that is not a hunk header, one extractor step either skips the
line keeping the cursor, or emits the cursor-numbered content and increments. -/
theorem no_hunk_step (cur : Nat) (line : String)
    (h : jsStartsWith line "@@" = false) :
    DriftDetector.processDiffLine cur line = (cur, none) ∨
    DriftDetector.processDiffLine cur line = (cur + 1, some (cur, strDrop1 line)) := by
  by_cases h1 : DriftDetector.isHeaderMeta line
  · left; simp [DriftDetector.processDiffLine, h, h1]
  · by_cases h2 : jsStartsWith line "+"
    · right; simp [DriftDetector.processDiffLine, h, h1, h2]
    · by_cases h3 : jsStartsWith line " "
      · right; simp [DriftDetector.processDiffLine, h, h1, h2, h3]
      · left; simp [DriftDetector.processDiffLine, h, h1, h2, h3]

/-- Within a hunk (no `@@` lines), every emitted line number is at least the
starting cursor. -/
theorem extractNumbered_le (lines : List String) :
    ∀ (cur : Nat), (∀ l ∈ lines, jsStartsWith l "@@" = false) →
      ∀ p ∈ DriftDetector.extractNumbered lines cur, cur ≤ p.1 := by
  induction lines with
  | nil => intro cur _ p hp; simp [DriftDetector.extractNumbered] at hp
  | cons l rest ih =>
    intro cur h p hp
    have hl := h l (by simp)
    have hrest : ∀ x ∈ rest, jsStartsWith x "@@" = false := fun x hx => h x (by simp [hx])
    rcases no_hunk_step cur l hl with hstep | hstep
    · simp only [DriftDetector.extractNumbered, hstep] at hp
      exact ih cur hrest p hp
    · simp only [DriftDetector.extractNumbered, hstep] at hp
      rcases List.mem_cons.mp hp with rfl | hp2
      · simp
      · exact Nat.le_trans (Nat.le_succ cur) (ih (cur + 1) hrest p hp2)

/-- Within a hunk (no `@@` lines), the emitted line numbers are pairwise
strictly increasing. -/
theorem extractNumbered_pairwise_lt (lines : List String) :
    ∀ (cur : Nat), (∀ l ∈ lines, jsStartsWith l "@@" = false) →
      List.Pairwise (fun p q => p.1 < q.1) (DriftDetector.extractNumbered lines cur) := by
  induction lines with
  | nil => intro cur _; simp [DriftDetector.extractNumbered]
  | cons l rest ih =>
    intro cur h
    have hl := h l (by simp)
    have hrest : ∀ x ∈ rest, jsStartsWith x "@@" = false := fun x hx => h x (by simp [hx])
    rcases no_hunk_step cur l hl with hstep | hstep
    · simp only [DriftDetector.extractNumbered, hstep]
      exact ih cur hrest
    · simp only [DriftDetector.extractNumbered, hstep]
      refine List.Pairwise.cons ?_ (ih (cur + 1) hrest)
      intro q hq
      exact Nat.lt_of_succ_le (extractNumbered_le rest (cur + 1) hrest q hq)

/-- `endsWith` is reflexive. -/
theorem jsEndsWith_self (a : String) : jsEndsWith a a = true := by
  simp [jsEndsWith]

/-- Ending with `"/" ++ b` implies ending with `b`. -/
theorem jsEndsWith_of_slash {a b : String} (h : jsEndsWith a ("/" ++ b) = true) :
    jsEndsWith a b = true := by
  simp only [jsEndsWith, decide_eq_true_eq] at h ⊢
  have hsub : b.data <:+ ("/" ++ b).data := ⟨['/'], rfl⟩
  exact hsub.trans h

/-- The three-way disjunction of `getLinksForFile` collapses to a plain
suffix test: equality and `/`-boundary suffixes are special cases of
`endsWith`. -/
theorem linkMatches_collapse (a b : String) :
    ((a == b) || jsEndsWith a ("/" ++ b) || jsEndsWith a b) = jsEndsWith a b := by
  by_cases h : jsEndsWith a b = true
  · simp [h]
  · have hb : (a == b) = false := by
      by_contra hc
      rw [Bool.not_eq_false, beq_iff_eq] at hc
      subst hc
      exact h (jsEndsWith_self a)
    have hslash : jsEndsWith a ("/" ++ b) = false := by
      by_contra hc
      rw [Bool.not_eq_false] at hc
      exact h (jsEndsWith_of_slash hc)
    simp [h, hb, hslash]

/-- After a find-index-replace-else-push save, the saved element is what the
same predicate finds. -/
theorem find?_upsertByKey {α : Type} (p : α → Bool) (l : List α) (a : α) (ha : p a = true) :
    (upsertByKey p l a).find? p = some a := by
  induction l with
  | nil => simp [upsertByKey, jsFindIndex, List.find?, ha]
  | cons x xs ih =>
    by_cases hx : p x
    · have h0 : upsertByKey p (x :: xs) a = a :: xs := by
        simp [upsertByKey, jsFindIndex, hx]
      rw [h0, List.find?_cons_of_pos _ ha]
    · cases hjs : jsFindIndex p xs with
      | some i =>
        have h0 : upsertByKey p (x :: xs) a = x :: xs.set i a := by
          simp [upsertByKey, jsFindIndex, hx, hjs]
        rw [h0, List.find?_cons_of_neg _ (by simp [hx])]
        have ih2 := ih
        rw [upsertByKey, hjs] at ih2
        exact ih2
      | none =>
        have h0 : upsertByKey p (x :: xs) a = x :: (xs ++ [a]) := by
          simp [upsertByKey, jsFindIndex, hx, hjs]
        rw [h0, List.find?_cons_of_neg _ (by simp [hx])]
        have ih2 := ih
        rw [upsertByKey, hjs] at ih2
        exact ih2

/-- A query with all fields absent matches every drift event. -/
theorem getDriftEvents_all (d : StorageData) :
    JsonFileStore.getDriftEvents d {} = d.driftEvents := by
  simp [JsonFileStore.getDriftEvents, JsonFileStore.driftMatchesQuery, jsTruthyStr]

/-- Merging an intent into a range entry keeps its start line. -/
theorem addIntentIfNew_startLine (r : DriftDetector.RangeCheck) (intent : IntentNode) :
    (DriftDetector.addIntentIfNew r intent).startLine = r.startLine := by
  unfold DriftDetector.addIntentIfNew
  split <;> rfl

/-- Merging an intent into a range entry keeps its code. -/
theorem addIntentIfNew_code (r : DriftDetector.RangeCheck) (intent : IntentNode) :
    (DriftDetector.addIntentIfNew r intent).code = r.code := by
  unfold DriftDetector.addIntentIfNew
  split <;> rfl

/-- Every intent of a merged entry was already present or is the merged one. -/
theorem mem_addIntentIfNew (r : DriftDetector.RangeCheck) (intent : IntentNode) :
    ∀ x ∈ (DriftDetector.addIntentIfNew r intent).intents, x ∈ r.intents ∨ x = intent := by
  unfold DriftDetector.addIntentIfNew
  split
  · intro x hx
    exact Or.inl hx
  · intro x hx
    rcases List.mem_append.mp hx with h | h
    · exact Or.inl h
    · simp only [List.mem_singleton] at h
      exact Or.inr h

/-- Merging never removes intents from an entry. -/
theorem addIntentIfNew_sub (r : DriftDetector.RangeCheck) (intent : IntentNode) :
    ∀ x ∈ r.intents, x ∈ (DriftDetector.addIntentIfNew r intent).intents := by
  unfold DriftDetector.addIntentIfNew
  split
  · intro x hx
    exact hx
  · intro x hx
    exact List.mem_append_left _ hx

/-- After merging, the merged intent's id is present in the entry. -/
theorem addIntentIfNew_idmem (r : DriftDetector.RangeCheck) (intent : IntentNode) :
    intent.id ∈ (DriftDetector.addIntentIfNew r intent).intents.map (fun i => i.id) := by
  unfold DriftDetector.addIntentIfNew
  split
  · next hcond =>
    obtain ⟨a, ha⟩ := Option.isSome_iff_exists.mp hcond
    have hmem := List.mem_of_find?_eq_some ha
    have hpa := List.find?_some ha
    rw [beq_iff_eq] at hpa
    exact List.mem_map.mpr ⟨a, hmem, hpa⟩
  · simp

/-- Merging preserves id-dedup of an entry's intent list. -/
theorem addIntentIfNew_nodup (r : DriftDetector.RangeCheck) (intent : IntentNode)
    (h : (r.intents.map (fun i => i.id)).Nodup) :
    ((DriftDetector.addIntentIfNew r intent).intents.map (fun i => i.id)).Nodup := by
  unfold DriftDetector.addIntentIfNew
  split
  · exact h
  · next hcond =>
    have hnone : r.intents.find? (fun i => i.id == intent.id) = none := by
      cases hf : r.intents.find? (fun i => i.id == intent.id) with
      | none => rfl
      | some a => rw [hf] at hcond; simp at hcond
    have hnotin : ∀ a ∈ r.intents.map (fun i => i.id), a ≠ intent.id := by
      intro a ha
      obtain ⟨x, hx, hxa⟩ := List.mem_map.mp ha
      have := List.find?_eq_none.mp hnone x hx
      rw [beq_iff_eq] at this
      rw [← hxa]
      exact this
    rw [List.map_append]
    exact List.Nodup.append h (by simp) (by
      intro a ha hb
      simp only [List.map_cons, List.map_nil, List.mem_singleton] at hb
      exact hnotin a ha hb)

/-- Updating the first matching entry does not change the start lines. -/
theorem updateFirstRange_map_startLine (intent : IntentNode) (s : Int) :
    ∀ acc : List DriftDetector.RangeCheck,
      (DriftDetector.updateFirstRange acc intent s).map (fun r => r.startLine) =
        acc.map (fun r => r.startLine) := by
  intro acc
  induction acc with
  | nil => rfl
  | cons r rest ih =>
    by_cases hr : (r.startLine == s) = true
    · simp [DriftDetector.updateFirstRange, hr, addIntentIfNew_startLine]
    · simp only [DriftDetector.updateFirstRange, hr, Bool.false_eq_true, if_false,
        List.map_cons]
      rw [ih]

/-- Every entry after an in-place update is an old entry or a merged old
entry at the updated start line. -/
theorem mem_updateFirstRange (intent : IntentNode) (s : Int) :
    ∀ acc : List DriftDetector.RangeCheck, ∀ r ∈ DriftDetector.updateFirstRange acc intent s,
      r ∈ acc ∨ ∃ r₀ ∈ acc, r₀.startLine = s ∧ r = DriftDetector.addIntentIfNew r₀ intent := by
  intro acc
  induction acc with
  | nil => intro r hr; simp [DriftDetector.updateFirstRange] at hr
  | cons x rest ih =>
    intro r hr
    by_cases hx : (x.startLine == s) = true
    · simp only [DriftDetector.updateFirstRange, hx, if_true] at hr
      rcases List.mem_cons.mp hr with rfl | hr2
      · exact Or.inr ⟨x, by simp, beq_iff_eq.mp hx, rfl⟩
      · exact Or.inl (List.mem_cons_of_mem _ hr2)
    · simp only [DriftDetector.updateFirstRange, hx, Bool.false_eq_true, if_false] at hr
      rcases List.mem_cons.mp hr with rfl | hr2
      · exact Or.inl (List.mem_cons_self _ _)
      · rcases ih r hr2 with h | ⟨r₀, hr₀, hs, heq⟩
        · exact Or.inl (List.mem_cons_of_mem _ h)
        · exact Or.inr ⟨r₀, List.mem_cons_of_mem _ hr₀, hs, heq⟩

/-- Every old entry survives an in-place update with the same start line,
code, and at least its old intents. -/
theorem updateFirstRange_preserve (intent : IntentNode) (s : Int) :
    ∀ acc : List DriftDetector.RangeCheck, ∀ r₀ ∈ acc,
      ∃ r ∈ DriftDetector.updateFirstRange acc intent s,
        r.startLine = r₀.startLine ∧ r.code = r₀.code ∧ ∀ x ∈ r₀.intents, x ∈ r.intents := by
  intro acc
  induction acc with
  | nil => intro r₀ hr₀; simp at hr₀
  | cons x rest ih =>
    intro r₀ hr₀
    by_cases hx : (x.startLine == s) = true
    · simp only [DriftDetector.updateFirstRange, hx, if_true]
      rcases List.mem_cons.mp hr₀ with rfl | hr2
      · exact ⟨DriftDetector.addIntentIfNew r₀ intent, by simp, addIntentIfNew_startLine _ _,
          addIntentIfNew_code _ _, addIntentIfNew_sub _ _⟩
      · exact ⟨r₀, List.mem_cons_of_mem _ hr2, rfl, rfl, fun x hx => hx⟩
    · simp only [DriftDetector.updateFirstRange, hx, Bool.false_eq_true, if_false]
      rcases List.mem_cons.mp hr₀ with rfl | hr2
      · exact ⟨r₀, List.mem_cons_self _ _, rfl, rfl, fun x hx => hx⟩
      · obtain ⟨r, hr, h1, h2, h3⟩ := ih r₀ hr2
        exact ⟨r, List.mem_cons_of_mem _ hr, h1, h2, h3⟩

/-- If some entry has the updated start line, after the update some entry at
that start line contains the merged intent's id. -/
theorem updateFirstRange_adds (intent : IntentNode) (s : Int) :
    ∀ acc : List DriftDetector.RangeCheck, (∃ r₀ ∈ acc, r₀.startLine = s) →
      ∃ r ∈ DriftDetector.updateFirstRange acc intent s,
        r.startLine = s ∧ intent.id ∈ r.intents.map (fun i => i.id) := by
  intro acc
  induction acc with
  | nil => rintro ⟨r₀, hr₀, _⟩; simp at hr₀
  | cons x rest ih =>
    rintro ⟨r₀, hr₀, hs⟩
    by_cases hx : (x.startLine == s) = true
    · refine ⟨DriftDetector.addIntentIfNew x intent,
        by simp [DriftDetector.updateFirstRange, hx], ?_, ?_⟩
      · rw [addIntentIfNew_startLine]
        exact beq_iff_eq.mp hx
      · exact addIntentIfNew_idmem _ _
    · rcases List.mem_cons.mp hr₀ with rfl | hr2
      · rw [← beq_iff_eq (a := r₀.startLine) (b := s)] at hs
        exact absurd hs hx
      · obtain ⟨r, hr, h1, h2⟩ := ih ⟨r₀, hr2, hs⟩
        refine ⟨r, ?_, h1, h2⟩
        simp only [DriftDetector.updateFirstRange, hx, Bool.false_eq_true, if_false]
        exact List.mem_cons_of_mem _ hr

/-- One `groupByRanges` loop iteration preserves the fold invariant. -/
theorem groupInv_step (intents : List IntentNode) (lines : List String)
    (processed : List IntentLink) (acc : List DriftDetector.RangeCheck) (link : IntentLink)
    (hinv : GroupInv intents lines processed acc) :
    GroupInv intents lines (processed ++ [link])
      (DriftDetector.rangeStep intents lines acc link) := by
  obtain ⟨hA, hB, hC, hD, hE⟩ := hinv
  cases hfind : intents.find? (fun x => x.id == link.intentId) with
  | none =>
    simp only [DriftDetector.rangeStep, hfind]
    refine ⟨hA, hB, ?_, ?_, ?_⟩
    · intro r hr
      obtain ⟨l, hl, hprops⟩ := hC r hr
      exact ⟨l, List.mem_append_left _ hl, hprops⟩
    · intro r hr i hi
      obtain ⟨l, hl, hprops⟩ := hD r hr i hi
      exact ⟨l, List.mem_append_left _ hl, hprops⟩
    · intro l hl intent hsome
      rcases List.mem_append.mp hl with hl2 | hl2
      · obtain ⟨r, hr, hprops⟩ := hE l hl2 intent hsome
        exact ⟨r, hr, hprops⟩
      · simp only [List.mem_singleton] at hl2
        subst hl2
        rw [hfind] at hsome
        cases hsome
  | some intent =>
    simp only [DriftDetector.rangeStep, hfind]
    set s := link.startLine.getD 0 with hs_def
    set cd := DriftDetector.linkCodeSlice lines link with hcd_def
    unfold DriftDetector.upsertRange
    by_cases hex : (acc.find? (fun r => r.startLine == s)).isSome = true
    · rw [if_pos hex]
      obtain ⟨r₀, hr₀, hr₀s⟩ := List.find?_isSome.mp hex
      refine ⟨?_, ?_, ?_, ?_, ?_⟩
      · rw [updateFirstRange_map_startLine]
        exact hA
      · intro r hr
        rcases mem_updateFirstRange intent s acc r hr with hmem | ⟨r₁, hr₁, _, rfl⟩
        · exact hB r hmem
        · exact addIntentIfNew_nodup r₁ intent (hB r₁ hr₁)
      · intro r hr
        rcases mem_updateFirstRange intent s acc r hr with hmem | ⟨r₁, hr₁, _, rfl⟩
        · obtain ⟨l, hl, hprops⟩ := hC r hmem
          exact ⟨l, List.mem_append_left _ hl, hprops⟩
        · obtain ⟨l, hl, h1, h2, h3⟩ := hC r₁ hr₁
          exact ⟨l, List.mem_append_left _ hl,
            by rw [addIntentIfNew_startLine]; exact h1,
            by rw [addIntentIfNew_code]; exact h2, h3⟩
      · intro r hr i hi
        rcases mem_updateFirstRange intent s acc r hr with hmem | ⟨r₁, hr₁, hr₁s, rfl⟩
        · obtain ⟨l, hl, hprops⟩ := hD r hmem i hi
          exact ⟨l, List.mem_append_left _ hl, hprops⟩
        · rcases mem_addIntentIfNew r₁ intent i hi with hi2 | rfl
          · obtain ⟨l, hl, h1, h2⟩ := hD r₁ hr₁ i hi2
            exact ⟨l, List.mem_append_left _ hl,
              by rw [addIntentIfNew_startLine]; exact h1, h2⟩
          · refine ⟨link, List.mem_append_right _ (by simp), ?_, hfind⟩
            rw [addIntentIfNew_startLine, hr₁s]
      · intro l hl intent2 hsome
        rcases List.mem_append.mp hl with hl2 | hl2
        · obtain ⟨r, hr, h1, h2⟩ := hE l hl2 intent2 hsome
          obtain ⟨r', hr', hp1, hp2, hp3⟩ := updateFirstRange_preserve intent s acc r hr
          refine ⟨r', hr', by rw [hp1]; exact h1, ?_⟩
          obtain ⟨x, hx, hxid⟩ := List.mem_map.mp h2
          exact List.mem_map.mpr ⟨x, hp3 x hx, hxid⟩
        · simp only [List.mem_singleton] at hl2
          subst hl2
          rw [hfind] at hsome
          obtain rfl : intent = intent2 := Option.some.inj hsome
          obtain ⟨r', hr', h1, h2⟩ := updateFirstRange_adds intent s acc
            ⟨r₀, hr₀, beq_iff_eq.mp hr₀s⟩
          exact ⟨r', hr', h1, h2⟩
    · rw [if_neg hex]
      have hnone : acc.find? (fun r => r.startLine == s) = none := by
        cases hf : acc.find? (fun r => r.startLine == s) with
        | none => rfl
        | some a => rw [hf] at hex; simp at hex
      have hnotin : s ∉ acc.map (fun r => r.startLine) := by
        intro hmem
        obtain ⟨r, hr, hrs⟩ := List.mem_map.mp hmem
        have := List.find?_eq_none.mp hnone r hr
        rw [beq_iff_eq] at this
        exact this hrs
      refine ⟨?_, ?_, ?_, ?_, ?_⟩
      · rw [List.map_append]
        exact List.Nodup.append hA (by simp)
          (by intro a ha hb
              simp only [List.map_cons, List.map_nil, List.mem_singleton] at hb
              subst hb
              exact hnotin ha)
      · intro r hr
        rcases List.mem_append.mp hr with hmem | hmem
        · exact hB r hmem
        · simp only [List.mem_singleton] at hmem
          subst hmem
          simp
      · intro r hr
        rcases List.mem_append.mp hr with hmem | hmem
        · obtain ⟨l, hl, hprops⟩ := hC r hmem
          exact ⟨l, List.mem_append_left _ hl, hprops⟩
        · simp only [List.mem_singleton] at hmem
          subst hmem
          exact ⟨link, List.mem_append_right _ (by simp), rfl, rfl, by rw [hfind]; rfl⟩
      · intro r hr i hi
        rcases List.mem_append.mp hr with hmem | hmem
        · obtain ⟨l, hl, hprops⟩ := hD r hmem i hi
          exact ⟨l, List.mem_append_left _ hl, hprops⟩
        · simp only [List.mem_singleton] at hmem
          subst hmem
          simp only [List.mem_singleton] at hi
          subst hi
          exact ⟨link, List.mem_append_right _ (by simp), rfl, hfind⟩
      · intro l hl intent2 hsome
        rcases List.mem_append.mp hl with hl2 | hl2
        · obtain ⟨r, hr, h1, h2⟩ := hE l hl2 intent2 hsome
          exact ⟨r, List.mem_append_left _ hr, h1, h2⟩
        · simp only [List.mem_singleton] at hl2
          subst hl2
          rw [hfind] at hsome
          obtain rfl : intent = intent2 := Option.some.inj hsome
          exact ⟨⟨[intent], cd, s⟩, List.mem_append_right _ (by simp), rfl, by simp⟩

/-- The fold invariant propagates along the whole `groupByRanges` loop. -/
theorem groupInv_foldl (intents : List IntentNode) (lines : List String) :
    ∀ (todo processed : List IntentLink) (acc : List DriftDetector.RangeCheck),
      GroupInv intents lines processed acc →
      GroupInv intents lines (processed ++ todo)
        (todo.foldl (DriftDetector.rangeStep intents lines) acc) := by
  intro todo
  induction todo with
  | nil => intro processed acc h; simpa using h
  | cons l ls ih =>
    intro processed acc h
    have h1 := groupInv_step intents lines processed acc l h
    have h2 := ih (processed ++ [l]) (DriftDetector.rangeStep intents lines acc l) h1
    simpa using h2

/-- The fold invariant holds vacuously at the start of the loop. -/
theorem groupInv_nil (intents : List IntentNode) (lines : List String) :
    GroupInv intents lines [] [] := by
  refine ⟨by simp, by simp, by simp, by simp, by simp⟩

/-- Claim C1: in file-mode drift detection, for every violation returned by
the classifier for a range whose start line is `S`, the emitted event's range
is `S + relative line - 1` for both start and end (character columns 0); and
the events of `detectInFile` in file mode are exactly the per-range
`rangeEvents`, concatenated over the ranges built by `groupByRanges`. -/
theorem c1_file_mode_line_remap :
    (∀ (deps : DriftDetector.DetectorDeps) (fileUri filePath language : String) (rIdx : Nat)
        (rc : DriftDetector.RangeCheck) (analysis : DriftAnalysis),
      deps.llm
          { intents := rc.intents, code := rc.code, filePath := filePath,
            language := language } = Except.ok analysis →
      (DriftDetector.rangeEvents deps fileUri filePath language rIdx rc).map
          (fun e => e.range) =
        analysis.violations.map (fun v =>
          { startLine := rc.startLine + v.lineStart - 1, startCharacter := 0,
            endLine := rc.startLine + v.lineEnd - 1, endCharacter := 0 })) ∧
    (∀ (deps : DriftDetector.DetectorDeps) (store : StorageData) (fileUri content : String),
      IntentLinker.getIntentsForFile store fileUri ≠ [] →
      deps.readFile (DriftDetector.stripFileScheme fileUri) = Except.ok content →
      (DriftDetector.detectInFile deps store fileUri none).events =
        ((DriftDetector.groupByRanges (IntentLinker.getIntentsForFile store fileUri)
            (JsonFileStore.getLinksForFile store fileUri) content).enum.map (fun ir =>
          DriftDetector.rangeEvents deps fileUri (DriftDetector.stripFileScheme fileUri)
            (DriftDetector.getLanguage (DriftDetector.stripFileScheme fileUri))
            ir.1 ir.2)).flatten) := by
  constructor
  · intro deps fileUri filePath language rIdx rc analysis hllm
    simp only [DriftDetector.rangeEvents, hllm]
    rw [List.map_map]
    have hcomp : (fun e => DriftEvent.range e) ∘
        (fun iv => DriftDetector.violationToFileEvent deps fileUri rc.intents rc.startLine
          rIdx iv.1 iv.2) =
        fun (iv : Nat × DriftViolation) =>
          ({ startLine := rc.startLine + iv.2.lineStart - 1, startCharacter := 0,
             endLine := rc.startLine + iv.2.lineEnd - 1, endCharacter := 0 } : Range) := by
      funext iv
      rfl
    rw [hcomp]
    have hsplit : (analysis.violations.enum.map fun iv =>
          ({ startLine := rc.startLine + iv.2.lineStart - 1, startCharacter := 0,
             endLine := rc.startLine + iv.2.lineEnd - 1, endCharacter := 0 } : Range)) =
        (analysis.violations.enum.map Prod.snd).map (fun v =>
          ({ startLine := rc.startLine + v.lineStart - 1, startCharacter := 0,
             endLine := rc.startLine + v.lineEnd - 1, endCharacter := 0 } : Range)) := by
      rw [List.map_map]
      rfl
    rw [hsplit, List.enum_map_snd]
  · intro deps store fileUri content hne hread
    have hlen : ((IntentLinker.getIntentsForFile store fileUri).length == 0) = false := by
      cases h : IntentLinker.getIntentsForFile store fileUri with
      | nil => exact absurd h hne
      | cons a l => simp
    simp only [DriftDetector.detectInFile, hlen, Bool.false_eq_true, if_false,
      DriftDetector.detectInFileContent, hread]

/-- Witness for C1: a violation at relative lines 3-3 on a range starting at
line 10 yields an event range 12-12. -/
theorem c1_file_mode_line_remap_witness :
    (DriftDetector.rangeEvents (sDetDeps c1Llm) "a.ts" "a.ts" "text" 0 c1Rc).map
        (fun e => e.range) =
      [{ startLine := 12, startCharacter := 0, endLine := 12, endCharacter := 0 }] := by
  have h := c1_file_mode_line_remap.1 (sDetDeps c1Llm) "a.ts" "a.ts" "text" 0 c1Rc
    { violations := [sViolation 3 3] } rfl
  rw [h]
  decide

/-- Claim C2 counterexample: with one open drift event in the store and an
empty explicit file list, `analyzeChanges` still reports `canCapture = true`,
so `canCapture` is not the store's open-drift emptiness. -/
theorem c2_counterexample_can_capture :
    (IntentMeshCore.analyzeChanges sCoreDeps openDriftStore { files := some [] }).canCapture
        = true ∧
    JsonFileStore.getDriftEvents openDriftStore { status := some "open" } ≠ [] := by
  constructor
  · rfl
  · decide

/-- Claim C2 (amended): `canCapture` equals the emptiness of the drift list
found by this very invocation (unconditionally `true` on an empty file list);
it is not recomputed from the store's open drift events. -/
theorem c2_amended_can_capture (deps : IntentMeshCore.CoreDeps) (store : StorageData)
    (options : IntentMeshCore.AnalyzeOptions) :
    (IntentMeshCore.analyzeChanges deps store options).canCapture =
      (IntentMeshCore.analyzeChanges deps store options).drifts.isEmpty := by
  unfold IntentMeshCore.analyzeChanges
  by_cases hf : (options.files.getD deps.getChangedFiles).isEmpty
  · simp [hf]
  · simp only [hf, Bool.false_eq_true, if_false]
    cases h : (IntentMeshCore.detectDrift deps (options.files.getD deps.getChangedFiles)
        5).drifts <;> simp [h]

/-- Claim C3: in the diff range extractor, header and meta lines are skipped
without advancing the cursor, `+` and context-space lines are emitted as
`"<n>: <content>"` at the current cursor and then the cursor increments, and
`-` lines are dropped without emitting and without incrementing. -/
theorem c3_diff_extractor_line_rules (cur : Nat) (line : String) (rest : List String) :
    (DriftDetector.isHeaderMeta line = true →
      DriftDetector.extractNumbered (line :: rest) cur =
        DriftDetector.extractNumbered rest cur) ∧
    (jsStartsWith line "+" = true → jsStartsWith line "+++" = false →
      (DriftDetector.extractNumbered (line :: rest) cur).map DriftDetector.renderNumberedLine =
        (toString cur ++ ": " ++ strDrop1 line) ::
          (DriftDetector.extractNumbered rest (cur + 1)).map
            DriftDetector.renderNumberedLine) ∧
    (jsStartsWith line " " = true →
      (DriftDetector.extractNumbered (line :: rest) cur).map DriftDetector.renderNumberedLine =
        (toString cur ++ ": " ++ strDrop1 line) ::
          (DriftDetector.extractNumbered rest (cur + 1)).map
            DriftDetector.renderNumberedLine) ∧
    (jsStartsWith line "-" = true → jsStartsWith line "---" = false →
      DriftDetector.extractNumbered (line :: rest) cur =
        DriftDetector.extractNumbered rest cur) := by
  refine ⟨?_, ?_, ?_, ?_⟩
  · intro hmeta
    have hat : jsStartsWith line "@@" = false := by
      rcases Bool.or_eq_true _ _ |>.mp hmeta with hor | h4
      · rcases Bool.or_eq_true _ _ |>.mp hor with hor2 | h3
        · rcases Bool.or_eq_true _ _ |>.mp hor2 with h1 | h2
          · exact startsWith_head_ne_false rfl (by rw [startsWith_head_eq h1 rfl]; decide)
          · exact startsWith_head_ne_false rfl (by rw [startsWith_head_eq h2 rfl]; decide)
        · exact startsWith_head_ne_false rfl (by rw [startsWith_head_eq h3 rfl]; decide)
      · exact startsWith_head_ne_false rfl (by rw [startsWith_head_eq h4 rfl]; decide)
    have hstep : DriftDetector.processDiffLine cur line = (cur, none) := by
      simp [DriftDetector.processDiffLine, hat, hmeta]
    simp [DriftDetector.extractNumbered, hstep]
  · intro hplus h3p
    have hh := startsWith_head_eq hplus (c := '+') rfl
    have hat : jsStartsWith line "@@" = false :=
      startsWith_head_ne_false rfl (by rw [hh]; decide)
    have hmeta : DriftDetector.isHeaderMeta line = false := by
      have h1 : jsStartsWith line "diff --git" = false :=
        startsWith_head_ne_false rfl (by rw [hh]; decide)
      have h2 : jsStartsWith line "index " = false :=
        startsWith_head_ne_false rfl (by rw [hh]; decide)
      have h3 : jsStartsWith line "---" = false :=
        startsWith_head_ne_false rfl (by rw [hh]; decide)
      simp [DriftDetector.isHeaderMeta, h1, h2, h3, h3p]
    have hstep : DriftDetector.processDiffLine cur line =
        (cur + 1, some (cur, strDrop1 line)) := by
      simp [DriftDetector.processDiffLine, hat, hmeta, hplus]
    simp [DriftDetector.extractNumbered, hstep, DriftDetector.renderNumberedLine]
  · intro hsp
    have hh := startsWith_head_eq hsp (c := ' ') rfl
    have hat : jsStartsWith line "@@" = false :=
      startsWith_head_ne_false rfl (by rw [hh]; decide)
    have hmeta : DriftDetector.isHeaderMeta line = false := by
      have h1 : jsStartsWith line "diff --git" = false :=
        startsWith_head_ne_false rfl (by rw [hh]; decide)
      have h2 : jsStartsWith line "index " = false :=
        startsWith_head_ne_false rfl (by rw [hh]; decide)
      have h3 : jsStartsWith line "---" = false :=
        startsWith_head_ne_false rfl (by rw [hh]; decide)
      have h4 : jsStartsWith line "+++" = false :=
        startsWith_head_ne_false rfl (by rw [hh]; decide)
      simp [DriftDetector.isHeaderMeta, h1, h2, h3, h4]
    have hplus : jsStartsWith line "+" = false :=
      startsWith_head_ne_false rfl (by rw [hh]; decide)
    have hstep : DriftDetector.processDiffLine cur line =
        (cur + 1, some (cur, strDrop1 line)) := by
      simp [DriftDetector.processDiffLine, hat, hmeta, hplus, hsp]
    simp [DriftDetector.extractNumbered, hstep, DriftDetector.renderNumberedLine]
  · intro hminus h3m
    have hh := startsWith_head_eq hminus (c := '-') rfl
    have hat : jsStartsWith line "@@" = false :=
      startsWith_head_ne_false rfl (by rw [hh]; decide)
    have hmeta : DriftDetector.isHeaderMeta line = false := by
      have h1 : jsStartsWith line "diff --git" = false :=
        startsWith_head_ne_false rfl (by rw [hh]; decide)
      have h2 : jsStartsWith line "index " = false :=
        startsWith_head_ne_false rfl (by rw [hh]; decide)
      have h4 : jsStartsWith line "+++" = false :=
        startsWith_head_ne_false rfl (by rw [hh]; decide)
      simp [DriftDetector.isHeaderMeta, h1, h2, h3m, h4]
    have hplus : jsStartsWith line "+" = false :=
      startsWith_head_ne_false rfl (by rw [hh]; decide)
    have hsp : jsStartsWith line " " = false :=
      startsWith_head_ne_false rfl (by rw [hh]; decide)
    have hstep : DriftDetector.processDiffLine cur line = (cur, none) := by
      simp [DriftDetector.processDiffLine, hat, hmeta, hplus, hsp]
    simp [DriftDetector.extractNumbered, hstep]

/-- Witness for C3: a `---` header is skipped, `+foo` and ` bar` are emitted
as `"5: foo"` and `"5: bar"` with the cursor advancing to 6, and `-gone` is
dropped. -/
theorem c3_diff_extractor_line_rules_witness :
    DriftDetector.extractNumbered ["--- a/x"] 5 = DriftDetector.extractNumbered [] 5 ∧
    (DriftDetector.extractNumbered ["+foo"] 5).map DriftDetector.renderNumberedLine =
      (toString 5 ++ ": " ++ strDrop1 "+foo") ::
        (DriftDetector.extractNumbered [] (5 + 1)).map DriftDetector.renderNumberedLine ∧
    (DriftDetector.extractNumbered [" bar"] 5).map DriftDetector.renderNumberedLine =
      (toString 5 ++ ": " ++ strDrop1 " bar") ::
        (DriftDetector.extractNumbered [] (5 + 1)).map DriftDetector.renderNumberedLine ∧
    DriftDetector.extractNumbered ["-gone"] 5 = DriftDetector.extractNumbered [] 5 :=
  ⟨(c3_diff_extractor_line_rules 5 "--- a/x" []).1 (by decide),
   (c3_diff_extractor_line_rules 5 "+foo" []).2.1 (by decide) (by decide),
   (c3_diff_extractor_line_rules 5 " bar" []).2.2.1 (by decide),
   (c3_diff_extractor_line_rules 5 "-gone" []).2.2.2 (by decide) (by decide)⟩

/-- Claim C4: within one hunk (no `@@` lines) the emitted line numbers are
strictly increasing, and a hunk header matching `@@ -a,b +c,d @@` resets the
cursor to `c` regardless of the previous cursor. -/
theorem c4_diff_line_numbers_monotone_and_reset :
    (∀ (lines : List String) (cur : Nat),
      (∀ l ∈ lines, jsStartsWith l "@@" = false) →
      List.Pairwise (· < ·) ((DriftDetector.extractNumbered lines cur).map Prod.fst)) ∧
    (∀ (header : String) (c cur : Nat) (rest : List String),
      jsStartsWith header "@@" = true →
      DriftDetector.hunkHeaderNewStart header = some c →
      DriftDetector.extractNumbered (header :: rest) cur =
        DriftDetector.extractNumbered rest c) := by
  constructor
  · intro lines cur h
    rw [List.pairwise_map]
    exact extractNumbered_pairwise_lt lines cur h
  · intro header c cur rest h1 h2
    have hstep : DriftDetector.processDiffLine cur header = (c, none) := by
      simp [DriftDetector.processDiffLine, h1, h2]
    simp [DriftDetector.extractNumbered, hstep]

/-- Witness for C4: strictly increasing numbers on a concrete hunk body, and
a concrete hunk header resetting the cursor from 7 to 31. -/
theorem c4_diff_line_numbers_monotone_and_reset_witness :
    List.Pairwise (· < ·)
      ((DriftDetector.extractNumbered ["+a", " b", "-c", "+d"] 7).map Prod.fst) ∧
    DriftDetector.extractNumbered ["@@ -1,2 +31,4 @@", "+x", " y"] 7 =
      DriftDetector.extractNumbered ["+x", " y"] 31 :=
  ⟨c4_diff_line_numbers_monotone_and_reset.1 ["+a", " b", "-c", "+d"] 7 (by decide),
   c4_diff_line_numbers_monotone_and_reset.2 "@@ -1,2 +31,4 @@" 31 7 ["+x", " y"]
     (by decide) (by decide)⟩

/-- Claim C5: when the extracted diff excerpt is blank, `detectInDiff`
returns zero events with `intentsChecked` equal to the number of applicable
intents, and the result does not depend on the classifier (it is never
invoked). -/
theorem c5_empty_diff_short_circuit (llm : DriftCheckParams → Except Unit DriftAnalysis)
    (uuid : Nat → String) (now : Nat) (fileUri diff : String)
    (intents : List IntentNode) (language : String)
    (h : jsTrim (DriftDetector.extractChangedCodeFromDiff diff) = "") :
    DriftDetector.detectInDiff llm uuid now fileUri diff intents language =
      { events := [], intentsChecked := intents.length } ∧
    ∀ llm', DriftDetector.detectInDiff llm uuid now fileUri diff intents language =
      DriftDetector.detectInDiff llm' uuid now fileUri diff intents language := by
  constructor
  · simp [DriftDetector.detectInDiff, h]
  · intro llm'
    simp [DriftDetector.detectInDiff, h]

/-- Witness for C5: a headers-only diff yields zero events, `intentsChecked`
1 for one applicable intent, and the same result under a failing classifier. -/
theorem c5_empty_diff_short_circuit_witness :
    DriftDetector.detectInDiff c1Llm (fun _ => "u") 0 "a.ts" c5Diff [sIntent "X"]
        "typescript" = { events := [], intentsChecked := 1 } ∧
    DriftDetector.detectInDiff c1Llm (fun _ => "u") 0 "a.ts" c5Diff [sIntent "X"]
        "typescript" =
      DriftDetector.detectInDiff (fun _ => Except.error ()) (fun _ => "u") 0 "a.ts" c5Diff
        [sIntent "X"] "typescript" :=
  ⟨(c5_empty_diff_short_circuit c1Llm (fun _ => "u") 0 "a.ts" c5Diff [sIntent "X"]
      "typescript" (by decide)).1,
   (c5_empty_diff_short_circuit c1Llm (fun _ => "u") 0 "a.ts" c5Diff [sIntent "X"]
      "typescript" (by decide)).2 (fun _ => Except.error ())⟩

/-- Claim C6: whenever the store holds at least one open drift event,
`captureIntents` returns zero imports, zero links, exactly the guard error,
and the unchanged store, regardless of its options. -/
theorem c6_capture_blocked_on_open_drift (deps : IntentMeshCore.CoreDeps)
    (store : StorageData) (options : IntentMeshCore.CaptureOptions)
    (h : JsonFileStore.getDriftEvents store { status := some "open" } ≠ []) :
    IntentMeshCore.captureIntents deps store options =
      ({ intentsImported := 0, linksCreated := 0,
         errors := [IntentMeshCore.captureGuardError
           (JsonFileStore.getDriftEvents store { status := some "open" }).length] },
       store) := by
  have hlen : 0 < (JsonFileStore.getDriftEvents store { status := some "open" }).length :=
    List.length_pos.mpr h
  unfold IntentMeshCore.captureIntents
  simp [hlen]

/-- Witness for C6: with one open drift event, `captureIntents` returns the
guard error and the unchanged store even with conversation ids and
auto-linking requested. -/
theorem c6_capture_blocked_on_open_drift_witness :
    IntentMeshCore.captureIntents sCoreDeps openDriftStore
        { conversationIds := some ["c"], autoLink := true } =
      ({ intentsImported := 0, linksCreated := 0,
         errors := [IntentMeshCore.captureGuardError
           (JsonFileStore.getDriftEvents openDriftStore { status := some "open" }).length] },
       openDriftStore) :=
  c6_capture_blocked_on_open_drift sCoreDeps openDriftStore
    { conversationIds := some ["c"], autoLink := true } (by decide)

/-- Claim C7: `resolveDrift` with `update_intent` and a statement rewrites
the first linked intent's statement (bumping `updatedAt`) and marks the event
resolved with `resolvedAt` set; with a missing statement it errors; with an
unknown event id it errors; in both error cases no store is produced. -/
theorem c7_resolve_drift_update_intent (store : StorageData) (now : Nat)
    (eventId s firstId : String) (event : DriftEvent) (rest : List String)
    (intent : IntentNode) :
    (store.driftEvents.find? (fun e => e.id == eventId) = some event →
      event.intentIds = firstId :: rest →
      JsonFileStore.getIntent store firstId = some intent →
      s ≠ "" →
      ∃ store₂,
        IntentMeshCore.resolveDrift store now eventId
            IntentMeshCore.ResolveAction.update_intent (some s) = Except.ok store₂ ∧
        JsonFileStore.getIntent store₂ firstId =
          some { intent with statement := s, updatedAt := now } ∧
        store₂.driftEvents.find? (fun e => e.id == eventId) =
          some { event with status := "resolved", resolvedAt := some now }) ∧
    (store.driftEvents.find? (fun e => e.id == eventId) = some event →
      IntentMeshCore.resolveDrift store now eventId
          IntentMeshCore.ResolveAction.update_intent none =
        Except.error "newStatement required for update_intent action") ∧
    (store.driftEvents.find? (fun e => e.id == eventId) = none →
      ∀ (action : IntentMeshCore.ResolveAction) (newStatement : Option String),
        IntentMeshCore.resolveDrift store now eventId action newStatement =
          Except.error ("Drift event " ++ eventId ++ " not found")) := by
  refine ⟨?_, ?_, ?_⟩
  · intro hfind hids hint hs
    have hsb : ((s == "") = false) := by simp [hs]
    have hevid : event.id = eventId := by
      have := List.find?_some hfind
      simpa using this
    have hintid : intent.id = firstId := by
      have := List.find?_some hint
      simpa using this
    refine ⟨JsonFileStore.saveDriftEvent
        (JsonFileStore.saveIntent store { intent with statement := s, updatedAt := now } now)
        { event with status := "resolved", resolvedAt := some now }, ?_, ?_, ?_⟩
    · unfold IntentMeshCore.resolveDrift
      rw [getDriftEvents_all]
      simp only [hfind, hids, hint, jsTruthyStr, hsb, Bool.not_false, Bool.not_true,
        Bool.false_eq_true, if_false, Option.getD_some]
    · subst hintid
      show JsonFileStore.getIntent
        (JsonFileStore.saveDriftEvent
          (JsonFileStore.saveIntent store { intent with statement := s, updatedAt := now } now)
          { event with status := "resolved", resolvedAt := some now }) intent.id =
        some { intent with statement := s, updatedAt := now }
      unfold JsonFileStore.getIntent JsonFileStore.saveDriftEvent JsonFileStore.saveIntent
      exact find?_upsertByKey _ _ _ (by simp)
    · subst hevid
      show (JsonFileStore.saveDriftEvent
          (JsonFileStore.saveIntent store { intent with statement := s, updatedAt := now } now)
          { event with status := "resolved", resolvedAt := some now }).driftEvents.find?
            (fun e => e.id == event.id) =
        some { event with status := "resolved", resolvedAt := some now }
      unfold JsonFileStore.saveDriftEvent JsonFileStore.saveIntent
      exact find?_upsertByKey _ _ _ (by simp)
  · intro hfind
    unfold IntentMeshCore.resolveDrift
    rw [getDriftEvents_all]
    simp [hfind, jsTruthyStr]
  · intro hfind action newStatement
    unfold IntentMeshCore.resolveDrift
    rw [getDriftEvents_all]
    simp [hfind]

/-- Witness for C7: on a concrete store, `update_intent` with `"new text"`
rewrites intent `X` and resolves event `e1` with `resolvedAt` set. -/
theorem c7_resolve_drift_update_intent_witness :
    ∃ store₂,
      IntentMeshCore.resolveDrift c7Store 5 "e1"
          IntentMeshCore.ResolveAction.update_intent (some "new text") = Except.ok store₂ ∧
      JsonFileStore.getIntent store₂ "X" =
        some { { sIntent "X" with statement := "old" } with
               statement := "new text", updatedAt := 5 } ∧
      store₂.driftEvents.find? (fun e => e.id == "e1") =
        some { sEventOpen "e1" with status := "resolved", resolvedAt := some 5 } :=
  (c7_resolve_drift_update_intent c7Store 5 "e1" "new text" "X" (sEventOpen "e1") []
    { sIntent "X" with statement := "old" }).1 (by decide) (by decide) (by decide) (by decide)

/-- Claim C8: with no line-scoped links, `groupByRanges` yields the single
whole-file range at line 1 carrying all applicable intents; otherwise the
ranges have pairwise distinct start lines, id-deduplicated intent sets, code
sliced as `lines[startLine-1, endLine)` from some applicable line-scoped
link, intents justified by links at the same start line, and every applicable
line-scoped link represented at its start line. -/
theorem c8_group_by_ranges (intents : List IntentNode) (links : List IntentLink)
    (content : String) :
    (links.filter DriftDetector.isRangeLink = [] →
      DriftDetector.groupByRanges intents links content =
        [{ intents := intents, code := content, startLine := 1 }]) ∧
    (links.filter DriftDetector.isRangeLink ≠ [] →
      (((DriftDetector.groupByRanges intents links content).map
          (fun r => r.startLine)).Nodup ∧
      (∀ r ∈ DriftDetector.groupByRanges intents links content,
        ((r.intents.map (fun i => i.id)).Nodup) ∧
        (∃ link ∈ links.filter DriftDetector.isRangeLink,
          r.startLine = link.startLine.getD 0 ∧
          r.code = DriftDetector.linkCodeSlice (jsSplit content '\n') link ∧
          (intents.find? (fun x => x.id == link.intentId)).isSome) ∧
        (∀ i ∈ r.intents, ∃ link ∈ links.filter DriftDetector.isRangeLink,
          link.startLine.getD 0 = r.startLine ∧
          intents.find? (fun x => x.id == link.intentId) = some i)) ∧
      (∀ link ∈ links.filter DriftDetector.isRangeLink, ∀ intent,
        intents.find? (fun x => x.id == link.intentId) = some intent →
        ∃ r ∈ DriftDetector.groupByRanges intents links content,
          r.startLine = link.startLine.getD 0 ∧
          intent.id ∈ r.intents.map (fun i => i.id)))) := by
  constructor
  · intro hempty
    simp [DriftDetector.groupByRanges, hempty]
  · intro hne
    have hiso : (links.filter DriftDetector.isRangeLink).isEmpty = false := by
      cases h : links.filter DriftDetector.isRangeLink with
      | nil => exact absurd h hne
      | cons a l => simp
    have hmain : DriftDetector.groupByRanges intents links content =
        (links.filter DriftDetector.isRangeLink).foldl
          (DriftDetector.rangeStep intents (jsSplit content '\n')) [] := by
      simp [DriftDetector.groupByRanges, hiso]
    have hinv := groupInv_foldl intents (jsSplit content '\n')
      (links.filter DriftDetector.isRangeLink) [] [] (groupInv_nil _ _)
    rw [List.nil_append] at hinv
    rw [hmain]
    obtain ⟨hA, hB, hC, hD, hE⟩ := hinv
    exact ⟨hA, fun r hr => ⟨hB r hr, hC r hr, hD r hr⟩, hE⟩

/-- Witness for C8: one whole-file range with no line-scoped links, and
distinct start lines with two concrete line-scoped links. -/
theorem c8_group_by_ranges_witness :
    DriftDetector.groupByRanges [sIntent "X"] [] "line1\nline2" =
      [{ intents := [sIntent "X"], code := "line1\nline2", startLine := 1 }] ∧
    ((DriftDetector.groupByRanges [sIntent "X"] [c8L1, c8L2] "l1\nl2\nl3").map
        (fun r => r.startLine)).Nodup :=
  ⟨(c8_group_by_ranges [sIntent "X"] [] "line1\nline2").1 rfl,
   ((c8_group_by_ranges [sIntent "X"] [c8L1, c8L2] "l1\nl2\nl3").2 (by decide)).1⟩

/-- Claim C9 counterexample: the stored link path `b.ts` is returned for the
query `ab.ts` although `b.ts` is not a `/`-boundary path suffix of `ab.ts`
and the paths are not equal: the implementation matches any plain string
suffix. -/
theorem c9_counterexample_suffix_match :
    c9Link ∈ JsonFileStore.getLinksForFile c9Store "ab.ts" ∧
    specSuffixTolerantMatch (JsonFileStore.normalizeUri "ab.ts")
      (JsonFileStore.normalizeUri c9Link.fileUri) = false := by
  constructor
  · decide
  · decide

/-- Claim C9 (amended): after normalization, `getLinksForFile` returns a
stored link exactly when the query path ends with the link path as a plain
string suffix; equality and `/`-boundary suffixes are special cases, but the
match is not restricted to `/` boundaries. -/
theorem c9_amended_links_for_file (d : StorageData) (fileUri : String) (l : IntentLink) :
    l ∈ JsonFileStore.getLinksForFile d fileUri ↔
      l ∈ d.links ∧
        jsEndsWith (JsonFileStore.normalizeUri fileUri)
          (JsonFileStore.normalizeUri l.fileUri) = true := by
  simp only [JsonFileStore.getLinksForFile, List.mem_filter]
  constructor
  · rintro ⟨hmem, hmatch⟩
    refine ⟨hmem, ?_⟩
    simp only [JsonFileStore.linkMatchesFile] at hmatch
    rwa [linkMatches_collapse] at hmatch
  · rintro ⟨hmem, hend⟩
    refine ⟨hmem, ?_⟩
    simp only [JsonFileStore.linkMatchesFile]
    rw [linkMatches_collapse]
    exact hend

/-- Claim C10: a link with a zero start or end line is treated exactly like a
link with no line range: `groupByRanges` is unchanged when its line fields
are replaced by `undefined`, `getLinksForRange` returns it for every query
range, and `createLink` with start line 0 produces `linkType = "manual"`. -/
theorem c10_zero_line_truthiness (link : IntentLink)
    (h : link.startLine = some 0 ∨ link.endLine = some 0) :
    (∀ (intents : List IntentNode) (content : String) (links₁ links₂ : List IntentLink),
      DriftDetector.groupByRanges intents (links₁ ++ link :: links₂) content =
        DriftDetector.groupByRanges intents
          (links₁ ++ { link with startLine := none, endLine := none } :: links₂) content) ∧
    (∀ (d : StorageData) (fileUri : String) (qs qe : Int),
      link ∈ JsonFileStore.getLinksForFile d fileUri →
      link ∈ IntentLinker.getLinksForRange d fileUri qs qe) ∧
    (∀ (freshId : String) (now : Nat) (d : StorageData) (intentId fileUri : String)
        (endLine : Option Int) (rationale : Option String),
      (IntentLinker.createLink freshId now d intentId fileUri (some 0) endLine
        rationale).1.linkType = "manual") := by
  have hfalse : DriftDetector.isRangeLink link = false := by
    rcases h with h0 | h0 <;> simp [DriftDetector.isRangeLink, jsTruthyNum, h0]
  refine ⟨?_, ?_, ?_⟩
  · intro intents content links₁ links₂
    have hfalse2 : DriftDetector.isRangeLink
        { link with startLine := none, endLine := none } = false := by
      simp [DriftDetector.isRangeLink, jsTruthyNum]
    simp [DriftDetector.groupByRanges, List.filter_append, List.filter_cons, hfalse, hfalse2]
  · intro d fileUri qs qe hmem
    simp only [IntentLinker.getLinksForRange, List.mem_filter]
    refine ⟨hmem, ?_⟩
    rcases h with h0 | h0 <;> simp [jsTruthyNum, h0]
  · intro freshId now d intentId fileUri endLine rationale
    simp [IntentLinker.createLink, createIntentLink, jsTruthyNum]

/-- Witness for C10: the concrete zero-start-line link is returned for a
far-away query range, and `createLink` with start line 0 is `"manual"`. -/
theorem c10_zero_line_truthiness_witness :
    (IntentLinker.createLink "id1" 0 c10Store "X" "a.ts" (some 0) (some 7)
        none).1.linkType = "manual" ∧
    c10Link ∈ IntentLinker.getLinksForRange c10Store "a.ts" 100 200 :=
  ⟨(c10_zero_line_truthiness c10Link (Or.inl rfl)).2.2 "id1" 0 c10Store "X" "a.ts"
      (some 7) none,
   (c10_zero_line_truthiness c10Link (Or.inl rfl)).2.1 c10Store "a.ts" 100 200 (by decide)⟩

end IntentMesh
